import Mathlib

/-!
# Verification of the fireplace action engine (`fireplace/actions.py`)

A shallow embedding of the action-resolution engine of the fireplace
card-game simulator, together with theorems settling the claims about it.

Python objects are modelled as Lean records; mutable heap state becomes
explicit state passing; Python reference identity (`is`) becomes equality
of numeric entity ids; a raised exception becomes an `Except`/`Option`
error value.  External collaborators (listener responses triggered by a
broadcast, the turn/zone machinery of the game object) are modelled as
explicit state-transformer parameters, so theorems quantify over every
possible behaviour of those collaborators.
-/

namespace Fireplace

/-- Card zones, from `hearthstone.enums.Zone` (only the members the
    embedded code paths touch). -/
inductive Zone where
  | play
  | hand
  | deck
  | graveyard
  | setaside
  | discard
  deriving DecidableEq, Repr

/-- Card types, from `hearthstone.enums.CardType` (only the members the
    embedded code paths touch). -/
inductive CardType where
  | heroPower
  | minion
  | spell
  | other
  deriving DecidableEq, Repr

/-! ## GenericChoice (`actions.py` lines 271-303)

`GenericChoice.do` stores the offered candidate list on the action and
sets `player.choice`; `GenericChoice.choose(card)` walks the offered
list: the candidate reference-identical to `card` goes to `Zone.PLAY`
(hero powers), to `Zone.HAND` (hand below `max_hand_size`) or is
discarded (full hand); every other candidate is discarded; finally
`player.choice` is cleared.  Reference identity is modelled by card ids.
`card.discard()` is the external entity method; per the spec it discards
the card, modelled as moving it to the discard zone. -/

structure Card where
  id : Nat
  ty : CardType
  zone : Zone
  deriving DecidableEq, Repr

/-- The state `GenericChoice.choose` acts on: the offered candidates
    (`self.cards`), the choosing player's hand size and hand limit, and
    the player's pending-choice slot (`player.choice`, `some c` when a
    choice `c` is open). -/
structure ChoiceState where
  cards : List Card
  handLen : Nat
  maxHandSize : Nat
  choice : Option Nat
  deriving DecidableEq, Repr

/-- One loop iteration of `GenericChoice.choose` (lines 293-302): the
    effect on candidate `c` and on the player's hand, given the chosen
    card's id.  Putting a card in the hand grows the hand. -/
def chooseStep (handLen maxHandSize : Nat) (chosen : Nat) (c : Card) :
    Card × Nat :=
  if c.id = chosen then
    if c.ty = CardType.heroPower then
      ({ c with zone := Zone.play }, handLen)
    else if handLen < maxHandSize then
      ({ c with zone := Zone.hand }, handLen + 1)
    else
      ({ c with zone := Zone.discard }, handLen)
  else
    ({ c with zone := Zone.discard }, handLen)

/-- The loop of `GenericChoice.choose` over the offered candidates. -/
def chooseLoop (handLen maxHandSize : Nat) (chosen : Nat) :
    List Card → List Card × Nat
  | [] => ([], handLen)
  | c :: cs =>
    let (c', h') := chooseStep handLen maxHandSize chosen c
    let (cs', h'') := chooseLoop h' maxHandSize chosen cs
    (c' :: cs', h'')

/-- `GenericChoice.choose(card)` (`actions.py` lines 292-303): process
    every offered candidate, then clear `player.choice`.  Note the
    source performs no membership check on `card` at all. -/
def genericChoose (st : ChoiceState) (chosen : Nat) : ChoiceState :=
  let (cards', handLen') := chooseLoop st.handLen st.maxHandSize chosen st.cards
  { st with cards := cards', handLen := handLen', choice := none }

/-! ## EndTurn (`actions.py` lines 238-248)

`EndTurn.do` raises `InvalidAction` when the player has an open choice;
otherwise it broadcasts `ON` and calls `game._end_turn()`.  The ON
broadcast (listener responses) and `_end_turn` are external
collaborators, modelled as state transformers. -/

/-- The state `EndTurn.do` acts on: the target player's pending choice,
    plus whatever game state the broadcast and `_end_turn` collaborators
    mutate (kept abstract as a `Nat`-indexed payload would be; a plain
    field suffices for the claims). -/
structure EndTurnState where
  playerChoice : Option Nat
  onBroadcasts : List Nat
  turnEnded : Bool
  deriving DecidableEq, Repr

/-- `EndTurn.do` (`actions.py` lines 244-248).  `broadcastOn` is the ON
    broadcast including all listener responses; `endTurn` is
    `game._end_turn()`.  A raise of `InvalidAction` is the `.error`
    result, returned together with the state as it was at the raise
    point. -/
def endTurnDo (broadcastOn endTurn : EndTurnState → EndTurnState)
    (s : EndTurnState) : Except String Unit × EndTurnState :=
  if s.playerChoice.isSome then
    (Except.error "InvalidAction: cannot end turn with an open choice", s)
  else
    (Except.ok (), endTurn (broadcastOn s))

/-! ## Bounce (`actions.py` lines 536-546)

`Bounce.do` destroys the target when its controller's hand is full,
otherwise moves it to the hand.  `Destroy` is queued through
`game.queue_actions`; the queue of destroy requests is modelled as a
list of target ids. -/

/-- The state `Bounce.do` acts on: the target's zone and id, its
    controller's hand, and the queue of `Destroy` actions submitted to
    the game. -/
structure BounceState where
  targetId : Nat
  targetZone : Zone
  handLen : Nat
  maxHandSize : Nat
  destroyQueue : List Nat
  deriving DecidableEq, Repr

/-- `Bounce.do` (`actions.py` lines 540-546). -/
def bounceDo (s : BounceState) : BounceState :=
  if s.handLen ≥ s.maxHandSize then
    { s with destroyQueue := s.destroyQueue ++ [s.targetId] }
  else
    { s with targetZone := Zone.hand }

/-! ## Predamage and Damage (`actions.py` lines 569-602)

`Predamage.do` doubles the amount once per point of the target's
`incoming_damage_multiplier`, stages it as `target.predamage`, and when
the staged amount is nonzero broadcasts ON and synchronously triggers
`Damage(target)` via `game.trigger_actions`, returning its result;
otherwise it returns 0.  `Damage.do` applies `target.predamage` through
`target._hit`, zeroes `target.predamage`, drops the source's stealth
when the source is a stealthed minion, and broadcasts ON when the
applied amount is nonzero. -/

/-- The state the Predamage→Damage pair acts on: the target's staged
    predamage, accumulated damage and incoming-damage multiplier, the
    source's type and stealth flag, and a log of the ON broadcasts the
    pair emits (event name, target id is implicit, amount). -/
structure DamageState where
  predamage : Nat
  damage : Nat
  incomingDamageMultiplier : Nat
  sourceType : CardType
  sourceStealthed : Bool
  onLog : List (String × Nat)
  deriving DecidableEq, Repr

/-- Modelled from the spec: `Entity._hit` is part of the excluded
    entity layer ("health/damage fields"); per the spec the staged
    amount round-trips, i.e. `_hit` applies the given amount to the
    target's damage total and returns the applied amount. -/
def entityHit (s : DamageState) (amount : Nat) : Nat × DamageState :=
  (amount, { s with damage := s.damage + amount })

/-- `Damage.do` (`actions.py` lines 594-602).  The per-target argument
    resolved by `Damage.get_target_args` is `target.predamage`, but
    `do` re-reads `target.predamage` itself. -/
def damageDo (s : DamageState) : Nat × DamageState :=
  let (amount, s) := entityHit s s.predamage
  let s := { s with predamage := 0 }
  let s :=
    if s.sourceType = CardType.minion ∧ s.sourceStealthed then
      { s with sourceStealthed := false }
    else s
  if amount ≠ 0 then
    (amount, { s with onLog := s.onLog ++ [("Damage.ON", amount)] })
  else
    (amount, s)

/-- `Predamage.do` (`actions.py` lines 575-582).  `broadcastOn` models
    the listener responses released by the Predamage ON broadcast
    (external collaborators reacting between staging and application);
    the broadcast record itself is appended to the log first. -/
def predamageDo (broadcastOn : DamageState → DamageState)
    (amount : Nat) (s : DamageState) : Nat × DamageState :=
  let amount := amount * 2 ^ s.incomingDamageMultiplier
  let s := { s with predamage := amount }
  if amount ≠ 0 then
    let s := { s with onLog := s.onLog ++ [("Predamage.ON", amount)] }
    let s := broadcastOn s
    damageDo s
  else
    (0, s)

/-! ## Attack (`actions.py` lines 153-193)

`Attack.do` records the proposed attacker/defender pair, broadcasts ON
(during which reactive effects may retarget the defender via
`game.proposed_defender` or set the attacker's `should_exit_combat`),
clears the proposal, aborts when `should_exit_combat` is set, asserts
attacker ≠ defender, queues the `Hit` sub-effects with attack values
captured before queueing, broadcasts AFTER, and resets combat state.
Entities are identified by ids; the ON/AFTER broadcasts are
state-transformer parameters; `assert` failure and Python attribute
errors are the `none` result. -/

/-- The per-entity combat state `Attack.do` touches. -/
structure CombatEntity where
  attackTarget : Option Nat
  defending : Bool
  shouldExitCombat : Bool
  numAttacks : Nat
  atk : Nat
  deriving DecidableEq, Repr

/-- The game state `Attack.do` acts on: every entity's combat fields,
    the proposed attacker/defender registers, and the queue of `Hit`
    actions submitted to the game (target id, amount). -/
structure AttackState where
  ent : Nat → CombatEntity
  proposedAttacker : Option Nat
  proposedDefender : Option Nat
  hits : List (Nat × Nat)

/-- Update one entity in an `AttackState`. -/
def AttackState.setEnt (s : AttackState) (i : Nat) (e : CombatEntity) :
    AttackState :=
  { s with ent := fun j => if j = i then e else s.ent j }

/-- The mutations `Attack.do` performs before its ON broadcast
    (`actions.py` lines 164-167): mark the attacker's target, the
    defender as defending, and record the proposed pair. -/
def attackPreOn (a d : Nat) (s : AttackState) : AttackState :=
  let s := s.setEnt a { s.ent a with attackTarget := some d }
  let s := s.setEnt d { s.ent d with defending := true }
  { s with proposedAttacker := some a, proposedDefender := some d }

/-- The tail of `Attack.do` from the `should_exit_combat` check on
    (`actions.py` lines 174-193), acting on the post-broadcast state
    with the proposal registers already cleared; `d'` is the (possibly
    retargeted) defender read back from `game.proposed_defender`. -/
def attackResolve (broadcastAfter : AttackState → AttackState)
    (a d' : Nat) (s : AttackState) : Option AttackState :=
  if (s.ent a).shouldExitCombat then
    let s := s.setEnt a { s.ent a with attackTarget := none }
    let s := s.setEnt d' { s.ent d' with defending := false }
    some s
  else if a = d' then
    none
  else
    let defAtk := (s.ent d').atk
    let s := { s with hits := s.hits ++ [(d', (s.ent a).atk)] }
    let s :=
      if defAtk ≠ 0 then { s with hits := s.hits ++ [(a, defAtk)] }
      else s
    let s := broadcastAfter s
    let s := s.setEnt a { s.ent a with attackTarget := none }
    let s := s.setEnt d' { s.ent d' with defending := false }
    let s := s.setEnt a { s.ent a with numAttacks := (s.ent a).numAttacks + 1 }
    some s

/-- `Attack.do` (`actions.py` lines 163-193).  `broadcastOn` and
    `broadcastAfter` are the ON/AFTER broadcasts with their listener
    responses.  `none` models a fatal error (the attacker-is-defender
    assertion, or the proposal registers being cleared mid-broadcast). -/
def attackDo (broadcastOn broadcastAfter : AttackState → AttackState)
    (a d : Nat) (s : AttackState) : Option AttackState :=
  let s1 := broadcastOn (attackPreOn a d s)
  match s1.proposedDefender with
  | none => none
  | some d' =>
    attackResolve broadcastAfter a d'
      { s1 with proposedAttacker := none, proposedDefender := none }

/-! ## Draw and Fatigue (`actions.py` lines 697-732)

`Draw.get_target_args` resolves the card as the top of the target
player's deck (`deck[-1]`), or `None` when the deck is empty.
`Draw.do` with a `None` card calls `target.fatigue()` and returns `[]`;
with a card it draws it, broadcasts ON, and returns `[card]`.
`Fatigue.do` does nothing when the player `cant_fatigue`, else
increments `fatigue_counter` and queues a `Hit` on the player's hero
for the new counter value. -/

/-- The state the Draw/Fatigue pair acts on: the target player's deck
    (card ids, top of deck last), hand, fatigue fields, hero id, and
    the queue of `Hit` actions submitted to the game (target id,
    amount). -/
structure PlayerState where
  deck : List Nat
  hand : List Nat
  fatigueCounter : Nat
  cantFatigue : Bool
  heroId : Nat
  hits : List (Nat × Nat)
  deriving DecidableEq, Repr

/-- `Fatigue.do` (`actions.py` lines 726-732). -/
def fatigueDo (s : PlayerState) : PlayerState :=
  if s.cantFatigue then s
  else
    let s := { s with fatigueCounter := s.fatigueCounter + 1 }
    { s with hits := s.hits ++ [(s.heroId, s.fatigueCounter)] }

/-- Modelled from the spec: `Player.fatigue()` is part of the excluded
    player layer; per the spec an empty draw "triggers fatigue (an
    escalating counter converted to direct damage to that player's
    avatar)", i.e. it runs the `Fatigue` action on the player. -/
def playerFatigue (s : PlayerState) : PlayerState :=
  fatigueDo s

/-- Modelled from the spec: `Card.draw()` is part of the excluded
    entity layer ("hand/deck containers"); drawing moves the card from
    the deck to its owner's hand. -/
def cardDraw (c : Nat) (s : PlayerState) : PlayerState :=
  { s with deck := s.deck.dropLast, hand := s.hand ++ [c] }

/-- `Draw.get_target_args` (`actions.py` lines 703-708): the top of the
    deck (`deck[-1]`), or `None` for an empty deck. -/
def drawGetTargetArgs (s : PlayerState) : Option Nat :=
  s.deck.getLast?

/-- `Draw.do` applied to its resolved card argument (`actions.py` lines
    710-717).  `broadcastOn` is the Draw ON broadcast with its listener
    responses (only reached when a card is drawn). -/
def drawDo (broadcastOn : PlayerState → PlayerState)
    (card : Option Nat) (s : PlayerState) : List Nat × PlayerState :=
  match card with
  | none => ([], playerFatigue s)
  | some c => ([c], broadcastOn (cardDraw c s))

/-- One full `Draw` execution on the target player: resolve the card
    argument, then run `Draw.do`. -/
def drawTrigger (broadcastOn : PlayerState → PlayerState)
    (s : PlayerState) : List Nat × PlayerState :=
  drawDo broadcastOn (drawGetTargetArgs s) s

/-- The state after one `Draw`, used to iterate repeated draws. -/
def drawStep (broadcastOn : PlayerState → PlayerState)
    (s : PlayerState) : PlayerState :=
  (drawTrigger broadcastOn s).2

/-! ## Action.matches (`actions.py` lines 108-120)

`matches` zips the broadcast arguments with the trigger pattern's
stored arguments: a `None` pattern argument is a wildcard; a `None`
broadcast argument against a concrete pattern argument fails; otherwise
the pattern argument (a selector) is evaluated on the one-element pool
`[arg]` and must select that very argument.  Selectors belong to the
excluded DSL; per the spec they are evaluated against a pool and return
the matching subsequence, modelled as filtering the pool by a
predicate.  Broadcast arguments are entity ids. -/

/-- Modelled from the spec: `Selector.eval(pool, source)` of the
    excluded DSL returns the ordered subsequence of the pool selected
    by the selector, modelled as a predicate filter. -/
def selectorEval (p : Nat → Bool) (pool : List Nat) : List Nat :=
  pool.filter p

/-- `Action.matches` (`actions.py` lines 108-120): fold over
    `zip(args, self._args)`; unmatched tails are ignored as `zip`
    truncates. -/
def actionMatches : List (Option Nat) → List (Option (Nat → Bool)) → Bool
  | arg :: args, pat :: pats =>
    match pat with
    | none => actionMatches args pats
    | some p =>
      match arg with
      | none => false
      | some x =>
        match selectorEval p [x] with
        | [] => false
        | y :: _ => if y = x then actionMatches args pats else false
  | _, _ => true

/-- What a successful match means, pair by pair: wildcard, or a concrete
    broadcast argument selected by the pattern's selector. -/
def pairMatches (arg : Option Nat) (pat : Option (Nat → Bool)) : Prop :=
  pat = none ∨ ∃ x p, arg = some x ∧ pat = some p ∧ p x = true

/-! ## Action.then and TargetedAction.__mul__ (`actions.py` lines 55-60,
72-80, 439-441)

`.then(*args)` builds a brand-new action of the same class from the
original `_args`/`_kwargs` (so `callback := ()`, `times := 1`,
`event_queue := []` per `__init__`), then overwrites `callback` with
the responses and copies `times`; the receiver is untouched.
`__mul__` instead mutates the receiver's `times` in place and returns
`self`.  Object identity is modelled with a heap of action objects
addressed by ids; argument values, kwarg values and response actions
are opaque ids. -/

/-- The fields of an `Action` object (`Action.__init__`, lines 55-60). -/
structure ActionObj where
  args : List Nat
  kwargs : List (Nat × Nat)
  callback : List Nat
  times : Nat
  eventQueue : List (Nat × List Nat)
  deriving DecidableEq, Repr

/-- A heap of action objects: `next` is the next fresh address, `store`
    maps addresses to objects. -/
structure ActionHeap where
  next : Nat
  store : Nat → ActionObj

/-- `Action.__init__(*args, **kwargs)` (lines 55-60) as the object it
    constructs. -/
def actionInit (args : List Nat) (kwargs : List (Nat × Nat)) : ActionObj :=
  { args := args, kwargs := kwargs, callback := [], times := 1,
    eventQueue := [] }

/-- `Action.then(*args)` (lines 72-80): allocate a fresh object built by
    `__init__` from the receiver's `_args`/`_kwargs`, set its `callback`
    to the responses and its `times` to the receiver's, return its
    address. -/
def actionThen (h : ActionHeap) (a : Nat) (responses : List Nat) :
    ActionHeap × Nat :=
  let old := h.store a
  let obj := { actionInit old.args old.kwargs with
               callback := responses, times := old.times }
  ({ next := h.next + 1,
     store := fun j => if j = h.next then obj else h.store j }, h.next)

/-- `TargetedAction.__mul__(value)` (lines 439-441): set the receiver's
    `times` in place, return the receiver itself. -/
def actionMul (h : ActionHeap) (a : Nat) (value : Nat) :
    ActionHeap × Nat :=
  ({ h with
     store := fun j =>
       if j = a then { h.store a with times := value } else h.store j },
   a)

/-! ## Give (`actions.py` lines 795-814)

`Give.do` walks the card list: a card facing a full hand is skipped
with only a log line; otherwise the card's controller becomes the
target and its zone becomes `HAND` (which inserts it into the target's
hand, growing it), and the card joins the returned list. -/

/-- The state `Give.do` acts on: the target player's hand and hand
    limit, and each card's zone and controller (indexed by card id). -/
structure GiveState where
  hand : List Nat
  maxHandSize : Nat
  zoneOf : Nat → Zone
  controllerOf : Nat → Nat

/-- Modelled from the spec: writing `card.zone = Zone.HAND` triggers the
    excluded entity layer's zone side effects, inserting the card into
    its controller's hand. -/
def putInHand (target : Nat) (c : Nat) (s : GiveState) : GiveState :=
  { s with hand := s.hand ++ [c],
           zoneOf := fun j => if j = c then Zone.hand else s.zoneOf j,
           controllerOf := fun j => if j = c then target else s.controllerOf j }

/-- `Give.do` (`actions.py` lines 801-814) on an already-materialized
    card list: skip cards facing a full hand, place the rest, return
    the placed cards in order. -/
def giveDo (target : Nat) (cards : List Nat) (s : GiveState) :
    List Nat × GiveState :=
  match cards with
  | [] => ([], s)
  | c :: rest =>
    if s.hand.length ≥ s.maxHandSize then
      giveDo target rest s
    else
      let s1 := putInHand target c s
      (c :: (giveDo target rest s1).1, (giveDo target rest s1).2)

/-! ## Concrete example inputs

Closed game states and collaborator behaviours used to evaluate the
embedded operations on concrete inputs. -/

/-- A choice opened over the single minion candidate with id 1. -/
def choiceEx : ChoiceState :=
  { cards := [{ id := 1, ty := CardType.minion, zone := Zone.setaside }],
    handLen := 0, maxHandSize := 10, choice := some 0 }

/-- A player with an open choice. -/
def endTurnOpenEx : EndTurnState :=
  { playerChoice := some 3, onBroadcasts := [], turnEnded := false }

/-- A player with no open choice. -/
def endTurnFreeEx : EndTurnState :=
  { playerChoice := none, onBroadcasts := [], turnEnded := false }

/-- An example ON-broadcast collaborator for `EndTurn`. -/
def etBroadcastEx (s : EndTurnState) : EndTurnState :=
  { s with onBroadcasts := s.onBroadcasts ++ [1] }

/-- An example `game._end_turn()` collaborator. -/
def etEndEx (s : EndTurnState) : EndTurnState :=
  { s with turnEnded := true }

/-- A bounce target facing a full hand. -/
def bounceFullEx : BounceState :=
  { targetId := 5, targetZone := Zone.play, handLen := 10,
    maxHandSize := 10, destroyQueue := [] }

/-- A bounce target whose controller has hand space. -/
def bounceRoomEx : BounceState :=
  { targetId := 5, targetZone := Zone.play, handLen := 3,
    maxHandSize := 10, destroyQueue := [] }

/-- A damage target with incoming-damage multiplier 2. -/
def dmgEx : DamageState :=
  { predamage := 0, damage := 4, incomingDamageMultiplier := 2,
    sourceType := CardType.minion, sourceStealthed := false, onLog := [] }

/-- A quiet combat entity. -/
def combatEntEx : CombatEntity :=
  { attackTarget := none, defending := false, shouldExitCombat := false,
    numAttacks := 0, atk := 3 }

/-- A combat state where nobody is attacking yet. -/
def atkEx : AttackState :=
  { ent := fun _ => combatEntEx, proposedAttacker := none,
    proposedDefender := none, hits := [] }

/-- An ON-broadcast collaborator whose listener response forces
    entity 0 to exit combat. -/
def brOnExitEx (s : AttackState) : AttackState :=
  s.setEnt 0 { s.ent 0 with shouldExitCombat := true }

/-- A player with an empty deck who can fatigue. -/
def playerEmptyEx : PlayerState :=
  { deck := [], hand := [2], fatigueCounter := 0, cantFatigue := false,
    heroId := 7, hits := [] }

/-- A player with an empty deck who cannot fatigue. -/
def playerCantEx : PlayerState :=
  { deck := [], hand := [2], fatigueCounter := 4, cantFatigue := true,
    heroId := 7, hits := [] }

/-- A heap holding one action object at address 0. -/
def heapEx : ActionHeap :=
  { next := 1,
    store := fun _ =>
      { args := [1, 2], kwargs := [(3, 4)], callback := [9], times := 5,
        eventQueue := [(0, [1])] } }

/-- A give target with hand [1, 2] and room for one more card. -/
def giveEx : GiveState :=
  { hand := [1, 2], maxHandSize := 3, zoneOf := fun _ => Zone.setaside,
    controllerOf := fun _ => 0 }

/-! ## Theorems -/

/-- C1: the claim requires `GenericChoice.choose` to reject a card that
    is not among the originally offered candidates as a contract
    violation; the code performs no membership check at all.  Evaluating
    the embedding at the failing input — a choice offering only the
    minion with id 1, answered with the unoffered card id 2 — shows the
    call is accepted: it discards every offered candidate and clears the
    player's pending choice, with no error raised (the embedding of
    `choose`, faithfully to the source, has no error outcome). -/
theorem genericChoice_accepts_unoffered_card :
    genericChoose choiceEx 2 =
      { cards := [{ id := 1, ty := CardType.minion, zone := Zone.discard }],
        handLen := 0, maxHandSize := 10, choice := none } := by
  decide

/-- C4: ending the turn with an open choice raises the distinguished
    `InvalidAction` failure before the ON broadcast and before
    `game._end_turn()`, leaving the state exactly as it was; with no
    open choice, `EndTurn.do` raises nothing and performs the broadcast
    followed by the turn end. -/
theorem endTurn_open_choice_raises
    (broadcastOn endTurn : EndTurnState → EndTurnState) (s : EndTurnState) :
    (s.playerChoice.isSome = true →
      endTurnDo broadcastOn endTurn s =
        (Except.error "InvalidAction: cannot end turn with an open choice", s)) ∧
    (s.playerChoice = none →
      endTurnDo broadcastOn endTurn s =
        (Except.ok (), endTurn (broadcastOn s))) := by
  constructor <;> intro h <;> simp [endTurnDo, h]

/-- Witness for C4 at concrete inputs: a player with choice `some 3`
    gets the error and an untouched state; a player with no choice ends
    the turn without an error. -/
theorem endTurn_open_choice_raises_witness :
    (endTurnOpenEx.playerChoice.isSome = true ∧
      endTurnDo etBroadcastEx etEndEx endTurnOpenEx =
        (Except.error "InvalidAction: cannot end turn with an open choice",
         endTurnOpenEx)) ∧
    (endTurnFreeEx.playerChoice = none ∧
      endTurnDo etBroadcastEx etEndEx endTurnFreeEx =
        (Except.ok (), etEndEx (etBroadcastEx endTurnFreeEx))) :=
  ⟨⟨rfl, (endTurn_open_choice_raises etBroadcastEx etEndEx endTurnOpenEx).1 rfl⟩,
   ⟨rfl, (endTurn_open_choice_raises etBroadcastEx etEndEx endTurnFreeEx).2 rfl⟩⟩

/-- C6: `Bounce.do` on a target whose controller's hand is full queues a
    `Destroy` of the target and never sets its zone to `HAND` (the zone
    is left untouched); with hand space it sets the zone to `HAND` and
    queues no `Destroy`. -/
theorem bounce_full_destroys_else_hand (s : BounceState) :
    (s.handLen ≥ s.maxHandSize →
      (bounceDo s).destroyQueue = s.destroyQueue ++ [s.targetId] ∧
      (bounceDo s).targetZone = s.targetZone) ∧
    (s.handLen < s.maxHandSize →
      (bounceDo s).targetZone = Zone.hand ∧
      (bounceDo s).destroyQueue = s.destroyQueue) := by
  constructor <;> intro h
  · simp [bounceDo, h]
  · simp [bounceDo, Nat.not_le.mpr h]

/-- Witness for C6 at concrete inputs: a full hand (10/10) destroys and
    keeps the target out of the hand; a hand at 3/10 moves the target
    to the hand with no destroy. -/
theorem bounce_full_destroys_else_hand_witness :
    (bounceFullEx.handLen ≥ bounceFullEx.maxHandSize ∧
      (bounceDo bounceFullEx).destroyQueue =
        bounceFullEx.destroyQueue ++ [bounceFullEx.targetId] ∧
      (bounceDo bounceFullEx).targetZone = bounceFullEx.targetZone) ∧
    (bounceRoomEx.handLen < bounceRoomEx.maxHandSize ∧
      (bounceDo bounceRoomEx).targetZone = Zone.hand ∧
      (bounceDo bounceRoomEx).destroyQueue = bounceRoomEx.destroyQueue) :=
  ⟨⟨by decide, (bounce_full_destroys_else_hand bounceFullEx).1 (by decide)⟩,
   ⟨by decide, (bounce_full_destroys_else_hand bounceRoomEx).2 (by decide)⟩⟩

/-- C2: `Predamage` stages `N * 2^M` (doubling once per point of the
    target's incoming-damage multiplier) and, whenever the staged amount
    is nonzero, synchronously triggers `Damage`, whose applied amount is
    exactly the staged `N * 2^M`; on every path — including the zero
    path where `Damage` never runs — the staged `predamage` is 0 after
    the sequence.  The hypothesis confines the listeners released by the
    Predamage ON broadcast to ones that neither re-stage predamage nor
    deal damage themselves. -/
theorem predamage_damage_roundtrip (br : DamageState → DamageState)
    (N : Nat) (s : DamageState)
    (hbr : ∀ t, (br t).predamage = t.predamage ∧ (br t).damage = t.damage) :
    (predamageDo br N s).1 = N * 2 ^ s.incomingDamageMultiplier ∧
    (predamageDo br N s).2.predamage = 0 ∧
    (predamageDo br N s).2.damage =
      s.damage + N * 2 ^ s.incomingDamageMultiplier := by
  obtain ⟨h1, h2⟩ := hbr
    { s with predamage := N * 2 ^ s.incomingDamageMultiplier,
             onLog := s.onLog ++
               [("Predamage.ON", N * 2 ^ s.incomingDamageMultiplier)] }
  by_cases h : N * 2 ^ s.incomingDamageMultiplier = 0
  · simp [predamageDo, h]
  · simp [predamageDo, damageDo, entityHit, h, h1, h2, apply_ite]

/-- Witness for C2 with the identity broadcast, amount 3 and
    multiplier 2: the applied amount is 12 and `predamage` ends at 0. -/
theorem predamage_damage_roundtrip_witness :
    (predamageDo id 3 dmgEx).1 = 3 * 2 ^ dmgEx.incomingDamageMultiplier ∧
    (predamageDo id 3 dmgEx).2.predamage = 0 ∧
    (predamageDo id 3 dmgEx).2.damage =
      dmgEx.damage + 3 * 2 ^ dmgEx.incomingDamageMultiplier :=
  predamage_damage_roundtrip id 3 dmgEx (fun _ => ⟨rfl, rfl⟩)

/-- C3: when the pre-attack ON broadcast leaves the attacker's
    `should_exit_combat` flag set, `Attack.do` aborts after the
    broadcast and before any `Hit` is constructed: the hit queue is
    exactly what it was after the broadcast (Attack itself queues no
    `Hit`), the attacker's `attack_target` is reset to `None`, the
    possibly retargeted defender's `defending` flag is reset to `False`,
    and the attacker's `num_attacks` is left at its post-broadcast
    value. -/
theorem attack_exit_combat_aborts
    (broadcastOn broadcastAfter : AttackState → AttackState)
    (a d d' : Nat) (s : AttackState)
    (hpd : (broadcastOn (attackPreOn a d s)).proposedDefender = some d')
    (hexit : ((broadcastOn (attackPreOn a d s)).ent a).shouldExitCombat = true) :
    ∃ s2, attackDo broadcastOn broadcastAfter a d s = some s2 ∧
      s2.hits = (broadcastOn (attackPreOn a d s)).hits ∧
      (s2.ent a).attackTarget = none ∧
      (s2.ent d').defending = false ∧
      (s2.ent a).numAttacks =
        ((broadcastOn (attackPreOn a d s)).ent a).numAttacks := by
  simp only [attackDo]
  rw [hpd]
  simp only [attackResolve, hexit, if_true]
  refine ⟨_, rfl, ?_, ?_, ?_, ?_⟩ <;>
    simp only [AttackState.setEnt] <;>
    split_ifs <;>
    first
      | rfl
      | omega

/-- Witness for C3: entity 0 attacks entity 1, the ON broadcast sets
    entity 0's exit-combat flag, and the attack aborts with no hits
    queued and combat state reset. -/
theorem attack_exit_combat_aborts_witness :
    (brOnExitEx (attackPreOn 0 1 atkEx)).proposedDefender = some 1 ∧
    ((brOnExitEx (attackPreOn 0 1 atkEx)).ent 0).shouldExitCombat = true ∧
    (∃ s2, attackDo brOnExitEx id 0 1 atkEx = some s2 ∧
      s2.hits = (brOnExitEx (attackPreOn 0 1 atkEx)).hits ∧
      (s2.ent 0).attackTarget = none ∧
      (s2.ent 1).defending = false ∧
      (s2.ent 0).numAttacks =
        ((brOnExitEx (attackPreOn 0 1 atkEx)).ent 0).numAttacks) :=
  ⟨rfl, rfl, attack_exit_combat_aborts brOnExitEx id 0 1 1 atkEx rfl rfl⟩

/-- One `Draw` on an empty deck for a player who can fatigue: empty
    result, fatigue counter bumped, one `Hit` on the hero for the new
    counter value. -/
theorem drawTrigger_empty (br : PlayerState → PlayerState) (s : PlayerState)
    (hdeck : s.deck = []) (hcant : s.cantFatigue = false) :
    drawTrigger br s =
      ([], { s with fatigueCounter := s.fatigueCounter + 1,
                    hits := s.hits ++ [(s.heroId, s.fatigueCounter + 1)] }) := by
  unfold drawTrigger drawDo drawGetTargetArgs playerFatigue fatigueDo
  rw [hdeck]
  simp [hcant]

/-- Iterating empty draws: the deck stays empty, the player keeps being
    able to fatigue, and the fatigue counter grows by one per draw. -/
theorem drawStep_iterate_empty (br : PlayerState → PlayerState) (n : Nat) :
    ∀ s : PlayerState, s.deck = [] → s.cantFatigue = false →
      ((drawStep br)^[n] s).fatigueCounter = s.fatigueCounter + n ∧
      ((drawStep br)^[n] s).deck = [] ∧
      ((drawStep br)^[n] s).cantFatigue = false := by
  induction n with
  | zero => intro s h1 h2; simpa using ⟨h1, h2⟩
  | succ n ih =>
    intro s h1 h2
    rw [Function.iterate_succ_apply]
    have hstep : drawStep br s =
        { s with fatigueCounter := s.fatigueCounter + 1,
                 hits := s.hits ++ [(s.heroId, s.fatigueCounter + 1)] } := by
      rw [drawStep, drawTrigger_empty br s h1 h2]
    rw [hstep]
    obtain ⟨ha, hb, hc⟩ :=
      ih { s with fatigueCounter := s.fatigueCounter + 1,
                  hits := s.hits ++ [(s.heroId, s.fatigueCounter + 1)] } h1 h2
    refine ⟨?_, hb, hc⟩
    rw [ha]
    show s.fatigueCounter + 1 + n = s.fatigueCounter + (n + 1)
    omega

/-- C5 (amended): a `Draw` on a player with an empty deck and
    `cant_fatigue` unset returns an empty result (never a card), takes
    the fatigue path, and produces exactly one fatigue-derived `Hit` on
    the player's hero whose amount is the incremented fatigue counter;
    across repeated empty draws the counter increases by exactly one
    each time.  (The original claim is refuted for `cant_fatigue`
    players, see the counterexample.) -/
theorem draw_empty_deck_fatigues (br : PlayerState → PlayerState)
    (s : PlayerState) (hdeck : s.deck = []) (hcant : s.cantFatigue = false) :
    drawTrigger br s =
      ([], { s with fatigueCounter := s.fatigueCounter + 1,
                    hits := s.hits ++ [(s.heroId, s.fatigueCounter + 1)] }) ∧
    (∀ n, ((drawStep br)^[n] s).fatigueCounter = s.fatigueCounter + n) :=
  ⟨drawTrigger_empty br s hdeck hcant,
   fun n => (drawStep_iterate_empty br n s hdeck hcant).1⟩

/-- Counterexample to C5 as stated: a player with an empty deck but
    `cant_fatigue` set draws nothing, yet no fatigue-derived `Hit` is
    produced and the fatigue counter does not move — refuting
    "producing exactly one fatigue-derived Hit ... the fatigue counter
    strictly increases". -/
theorem draw_cant_fatigue_no_hit :
    playerCantEx.deck = [] ∧
    (drawTrigger id playerCantEx).2.hits = playerCantEx.hits ∧
    (drawTrigger id playerCantEx).2.fatigueCounter =
      playerCantEx.fatigueCounter ∧
    ¬((drawTrigger id playerCantEx).2.hits =
        playerCantEx.hits ++
          [(playerCantEx.heroId, playerCantEx.fatigueCounter + 1)]) := by
  decide

/-- Witness for C5 at a concrete player: one empty draw produces the
    single fatigue hit, and three iterated empty draws raise the
    counter by three. -/
theorem draw_empty_deck_fatigues_witness :
    drawTrigger id playerEmptyEx =
      ([], { playerEmptyEx with
             fatigueCounter := playerEmptyEx.fatigueCounter + 1,
             hits := playerEmptyEx.hits ++
               [(playerEmptyEx.heroId, playerEmptyEx.fatigueCounter + 1)] }) ∧
    ((drawStep id)^[3] playerEmptyEx).fatigueCounter =
      playerEmptyEx.fatigueCounter + 3 :=
  ⟨(draw_empty_deck_fatigues id playerEmptyEx rfl rfl).1,
   (draw_empty_deck_fatigues id playerEmptyEx rfl rfl).2 3⟩

/-- C7: `Action.matches` succeeds exactly when, for every broadcast
    argument paired with a pattern argument by `zip`, the pattern
    argument is `None` (a wildcard, matching anything) or the broadcast
    argument is a concrete entity selected by the pattern argument's
    selector on the one-element pool holding exactly that entity — in
    particular a `None` broadcast argument never matches a concrete
    pattern argument, and a concrete pattern argument only ever matches
    the reference-identical entity at its position. -/
theorem actionMatches_iff (args : List (Option Nat))
    (pats : List (Option (Nat → Bool))) :
    actionMatches args pats = true ↔
      ∀ pr ∈ args.zip pats, pairMatches pr.1 pr.2 := by
  induction args generalizing pats with
  | nil => cases pats <;> simp [actionMatches]
  | cons arg args ih =>
    cases pats with
    | nil => simp [actionMatches]
    | cons pat pats =>
      cases pat with
      | none => simp [actionMatches, pairMatches, ih]
      | some p =>
        cases arg with
        | none => simp [actionMatches, pairMatches]
        | some x =>
          by_cases hpx : p x
          · simp [actionMatches, selectorEval, pairMatches, hpx, ih]
          · simp [actionMatches, selectorEval, pairMatches,
                  Bool.eq_false_iff.mpr hpx]

/-- Witness for C7 at concrete patterns: a selector for entity 4 plus a
    wildcard matches the broadcast `(4, whatever)`, and a concrete
    pattern argument never matches a `None` broadcast argument. -/
theorem actionMatches_iff_witness :
    actionMatches [some 4, none] [some (fun v => decide (v = 4)), none] = true ∧
    actionMatches [none] [some (fun v => decide (v = 4))] ≠ true :=
  ⟨(actionMatches_iff [some 4, none]
      [some (fun v => decide (v = 4)), none]).mpr (by
        intro pr hpr
        simp only [List.zip_cons_cons, List.zip_nil_right, List.mem_cons,
          List.not_mem_nil, or_false] at hpr
        rcases hpr with h | h <;> subst h
        · exact Or.inr ⟨4, fun v => decide (v = 4), rfl, rfl, rfl⟩
        · exact Or.inl rfl),
   fun h => by
     have hp := (actionMatches_iff [none]
       [some (fun v => decide (v = 4))]).mp h (none, some (fun v => decide (v = 4)))
       (by simp)
     simp [pairMatches] at hp⟩

/-- C8: `Action.then` allocates a brand-new action (its address is
    fresh, hence different from the receiver's), built from the
    receiver's original positional and keyword arguments, with
    `callback` set to the responses, the receiver's `times`, and an
    empty event queue per `__init__`; the receiver — and every other
    object in the heap — is left untouched. -/
theorem actionThen_fresh_copy (h : ActionHeap) (a : Nat)
    (responses : List Nat) (hlt : a < h.next) :
    (actionThen h a responses).2 ≠ a ∧
    (actionThen h a responses).1.store a = h.store a ∧
    (actionThen h a responses).1.store (actionThen h a responses).2 =
      { args := (h.store a).args, kwargs := (h.store a).kwargs,
        callback := responses, times := (h.store a).times,
        eventQueue := [] } ∧
    (∀ j, j ≠ h.next → (actionThen h a responses).1.store j = h.store j) := by
  refine ⟨fun he => absurd (he ▸ hlt) (lt_irrefl a), ?_, ?_, ?_⟩
  · simp [actionThen, Nat.ne_of_lt hlt]
  · simp [actionThen, actionInit]
  · intro j hj
    simp [actionThen, hj]

/-- Witness for C8 on a one-object heap: `then` returns address 1 ≠ 0,
    address 0 is unchanged, the new object carries the original
    args/kwargs with the responses and copied `times`, and unrelated
    address 5 is untouched. -/
theorem actionThen_fresh_copy_witness :
    0 < heapEx.next ∧
    (actionThen heapEx 0 [7]).2 ≠ 0 ∧
    (actionThen heapEx 0 [7]).1.store 0 = heapEx.store 0 ∧
    (actionThen heapEx 0 [7]).1.store (actionThen heapEx 0 [7]).2 =
      { args := (heapEx.store 0).args, kwargs := (heapEx.store 0).kwargs,
        callback := [7], times := (heapEx.store 0).times,
        eventQueue := [] } ∧
    (actionThen heapEx 0 [7]).1.store 5 = heapEx.store 5 :=
  ⟨Nat.zero_lt_one,
   (actionThen_fresh_copy heapEx 0 [7] Nat.zero_lt_one).1,
   (actionThen_fresh_copy heapEx 0 [7] Nat.zero_lt_one).2.1,
   (actionThen_fresh_copy heapEx 0 [7] Nat.zero_lt_one).2.2.1,
   (actionThen_fresh_copy heapEx 0 [7] Nat.zero_lt_one).2.2.2 5 (by decide)⟩

/-- C9: `TargetedAction.__mul__` returns the very same address it was
    given — no allocation happens — after mutating that object's
    `times` to the given value in place, all other fields intact; every
    other holder of the address observes the new `times`, and every
    other address is untouched. -/
theorem actionMul_in_place (h : ActionHeap) (a value : Nat) :
    (actionMul h a value).2 = a ∧
    (actionMul h a value).1.next = h.next ∧
    ((actionMul h a value).1.store a).times = value ∧
    ((actionMul h a value).1.store a).args = (h.store a).args ∧
    ((actionMul h a value).1.store a).kwargs = (h.store a).kwargs ∧
    ((actionMul h a value).1.store a).callback = (h.store a).callback ∧
    ((actionMul h a value).1.store a).eventQueue = (h.store a).eventQueue ∧
    (∀ j, j ≠ a → (actionMul h a value).1.store j = h.store j) := by
  refine ⟨rfl, rfl, ?_, ?_, ?_, ?_, ?_, ?_⟩ <;>
    simp [actionMul]
  intro j hj
  simp [hj]

/-- Witness for C9 on a one-object heap: multiplying the action at
    address 0 by 4 yields address 0 again with `times` now 4, original
    args intact, and address 5 untouched. -/
theorem actionMul_in_place_witness :
    (actionMul heapEx 0 4).2 = 0 ∧
    ((actionMul heapEx 0 4).1.store 0).times = 4 ∧
    ((actionMul heapEx 0 4).1.store 0).args = (heapEx.store 0).args ∧
    (actionMul heapEx 0 4).1.store 5 = heapEx.store 5 :=
  ⟨(actionMul_in_place heapEx 0 4).1,
   (actionMul_in_place heapEx 0 4).2.2.1,
   (actionMul_in_place heapEx 0 4).2.2.2.1,
   (actionMul_in_place heapEx 0 4).2.2.2.2.2.2.2 5 (by decide)⟩

/-- C10: `Give.do` places exactly the cards that fit — the initial
    segment of the card list up to the remaining hand space — returning
    them in order; every placed card ends up controlled by the target
    with zone `HAND`, and every card outside that segment (in
    particular each skipped card facing a full hand) is silently left
    untouched: its zone and controller are unchanged, with no error,
    destruction or discard (the embedding of `Give.do`, faithfully to
    the source, is total and has no destroy/discard path). -/
theorem giveDo_places_fitting_cards (target : Nat) (cards : List Nat)
    (s : GiveState) :
    (giveDo target cards s).1 =
      cards.take (s.maxHandSize - s.hand.length) ∧
    (∀ x, x ∉ cards.take (s.maxHandSize - s.hand.length) →
      (giveDo target cards s).2.zoneOf x = s.zoneOf x ∧
      (giveDo target cards s).2.controllerOf x = s.controllerOf x) ∧
    (∀ x, x ∈ cards.take (s.maxHandSize - s.hand.length) →
      (giveDo target cards s).2.zoneOf x = Zone.hand ∧
      (giveDo target cards s).2.controllerOf x = target) := by
  induction cards generalizing s with
  | nil => simp [giveDo]
  | cons c rest ih =>
    by_cases hfull : s.hand.length ≥ s.maxHandSize
    · have hk : s.maxHandSize - s.hand.length = 0 :=
        Nat.sub_eq_zero_of_le hfull
      obtain ⟨ih1, ih2, ih3⟩ := ih s
      rw [hk] at ih1 ih2 ih3
      simp only [giveDo, if_pos hfull, hk, List.take_zero]
      exact ⟨by simpa using ih1,
             fun x _ => ih2 x (List.not_mem_nil x),
             fun x hx => absurd hx (List.not_mem_nil x)⟩
    · have hlt : s.hand.length < s.maxHandSize := lt_of_not_ge hfull
      obtain ⟨m, hm⟩ : ∃ m, s.maxHandSize - s.hand.length = m + 1 :=
        ⟨s.maxHandSize - s.hand.length - 1, by omega⟩
      have hk1 : (putInHand target c s).maxHandSize -
          (putInHand target c s).hand.length = m := by
        simp only [putInHand, List.length_append, List.length_singleton]
        omega
      obtain ⟨ih1, ih2, ih3⟩ := ih (putInHand target c s)
      rw [hk1] at ih1 ih2 ih3
      rw [hm]
      simp only [giveDo, if_neg hfull, List.take_succ_cons]
      refine ⟨by rw [ih1], ?_, ?_⟩
      · intro x hx
        have hxc : x ≠ c := fun he => hx (he ▸ List.mem_cons_self c _)
        have hxm : x ∉ rest.take m := fun hin => hx (List.mem_cons_of_mem c hin)
        obtain ⟨hz, hc⟩ := ih2 x hxm
        rw [hz, hc]
        simp [putInHand, hxc]
      · intro x hx
        by_cases hxm : x ∈ rest.take m
        · exact ih3 x hxm
        · have hxc : x = c := by
            rcases List.mem_cons.mp hx with h | h
            · exact h
            · exact absurd h hxm
          obtain ⟨hz, hc⟩ := ih2 x hxm
          rw [hz, hc]
          simp [putInHand, hxc]

/-- Witness for C10: giving cards 10 and 11 to a player whose hand
    holds 2 of 3 cards places only card 10 (returned alone), leaves the
    skipped card 11 untouched, and marks card 10 as a hand card of the
    target. -/
theorem giveDo_places_fitting_cards_witness :
    (giveDo 9 [10, 11] giveEx).1 =
      [10, 11].take (giveEx.maxHandSize - giveEx.hand.length) ∧
    ((giveDo 9 [10, 11] giveEx).2.zoneOf 11 = giveEx.zoneOf 11 ∧
     (giveDo 9 [10, 11] giveEx).2.controllerOf 11 = giveEx.controllerOf 11) ∧
    ((giveDo 9 [10, 11] giveEx).2.zoneOf 10 = Zone.hand ∧
     (giveDo 9 [10, 11] giveEx).2.controllerOf 10 = 9) :=
  ⟨(giveDo_places_fitting_cards 9 [10, 11] giveEx).1,
   (giveDo_places_fitting_cards 9 [10, 11] giveEx).2.1 11 (by decide),
   (giveDo_places_fitting_cards 9 [10, 11] giveEx).2.2 10 (by decide)⟩

end Fireplace
